import Mathlib

/-!
Verification of the Modfwango-CPP core against its specification.

The development shallowly embeds the repository's C++ sources:

* `src/src/SocketManagement.cpp` — listening-socket registry (`newSocket`,
  `acceptConnections`, address validation via `inet_pton`/`inet_ntop`);
* `src/src/EventPreprocessor.cpp` — the veto-predicate wrapper;
* `src/src/ModuleManagement.cpp` — dynamic module loading/unloading;
* `src/include/EventHandling.hpp` — the event-bus interface.  The event-bus
  implementation file (`EventHandling.cpp`) is not part of the sources at
  hand, so the bus operations are modelled from the specification, as marked
  in their doc comments.

Machine integers are modelled as `Nat`/`Int`; C++ `std::map` registries are
modelled as association lists; OS effects (`bind`, `accept`, `dlopen`,
`dlsym`) are modelled as explicit oracle inputs; callbacks with side effects
are modelled by returning a trace of the invocations that the C++ code would
perform, in order, together with the argument passed to each one.
-/

namespace Modfwango

/-! ### IPv4 address validation (`inet_pton` / `inet_ntop`, AF_INET)

`SocketManagement::isValidIP` and `SocketManagement::getValidIP` defer to the
libc functions `inet_pton` and `inet_ntop`.  For `AF_INET`, `inet_pton`
accepts exactly the strict dotted-decimal form: four components separated by
`'.'`, each a non-empty run of decimal digits with value ≤ 255 and no
leading zero (the BIND-derived implementation rejects a digit following a
leading `0`).  `inet_ntop` prints the four octets in decimal separated by
dots. -/

/-- Split a character list on a separator character; `n` separators yield
`n + 1` chunks (empty chunks included), mirroring how `inet_pton` walks the
input octet by octet. -/
def splitOnChar (sep : Char) : List Char → List (List Char)
  | [] => [[]]
  | c :: cs =>
    if c = sep then
      [] :: splitOnChar sep cs
    else
      match splitOnChar sep cs with
      | [] => [[c]]
      | chunk :: rest => (c :: chunk) :: rest

/-- Decimal value of a digit run (assumes `digitsOk`). -/
def digitsVal (cs : List Char) : Nat :=
  cs.foldl (fun acc c => acc * 10 + (c.toNat - '0'.toNat)) 0

/-- One octet of a dotted-decimal IPv4 literal as accepted by `inet_pton`:
non-empty, all decimal digits, no leading zero unless the octet is exactly
`"0"`, and value at most 255. -/
def octetOk (cs : List Char) : Bool :=
  match cs with
  | [] => false
  | c :: rest =>
    (c :: rest).all (fun d => d.isDigit) &&
    (decide (c ≠ '0') || rest.isEmpty) &&
    digitsVal (c :: rest) ≤ 255

/-- Model of `inet_pton(AF_INET, addr, ...)`: parse a strict dotted-decimal
IPv4 literal into its four octets, or `none` when the call would return 0. -/
def parseIPv4 (addr : String) : Option (Nat × Nat × Nat × Nat) :=
  match splitOnChar '.' addr.data with
  | [a, b, c, d] =>
    if octetOk a && octetOk b && octetOk c && octetOk d then
      some (digitsVal a, digitsVal b, digitsVal c, digitsVal d)
    else
      none
  | _ => none

/-- Model of `inet_ntop(AF_INET, ...)`: canonical dotted-decimal printing of
four octets. -/
def formatIPv4 : Nat × Nat × Nat × Nat → String
  | (a, b, c, d) =>
    toString a ++ "." ++ toString b ++ "." ++ toString c ++ "." ++ toString d

/-- `SocketManagement::isValidIP`: `inet_pton(AF_INET, addr.c_str(), ...) == 1`. -/
def isValidIP (addr : String) : Bool :=
  (parseIPv4 addr).isSome

/-- `SocketManagement::getValidIP`: `inet_pton` followed by `inet_ntop` on
the parsed `sin_addr`.  The C++ code ignores `inet_pton`'s return value, so
on invalid input it formats an uninitialized `sin_addr`; the sources under
verification only reach that branch from `destroySocket`, which no claim
exercises, and the model returns `""` there. -/
def getValidIP (addr : String) : String :=
  match parseIPv4 addr with
  | some quad => formatIPv4 quad
  | none => ""

/-! ### SocketManagement

`SocketManagement::sockets` is a `std::map<std::string,
std::shared_ptr<Socket>>`; it is modelled as an association list from the
string key to an opaque socket identity (`Nat`).  The key computed by
`newSocket` and `destroySocket` is
`SocketManagement::getValidIP(addr) + std::to_string(port)` — the normalized
address concatenated directly with the decimal port, with no separator.

Constructing a `Socket` performs the OS `socket`/`bind`/`listen` calls; the
outcome of that external step is an explicit oracle input `bindOk`, and the
identity of the freshly constructed socket is the input `sid`. -/

/-- The registry key computed at `SocketManagement.cpp:131` (and likewise at
line 71): normalized address concatenated with the decimal port, no
separator. -/
def socketKey (addr : String) (port : Nat) : String :=
  getValidIP addr ++ toString port

/-- The listening-socket registry: key ↦ opaque socket identity. -/
abbrev SocketRegistry := List (String × Nat)

/-- Which exit path `SocketManagement::newSocket` took.  The C++ function
returns a plain `bool` (`true` only on `ok`); the spec's taxonomy
`ok|InvalidAddress|BindError|DuplicateKey` names the four distinguishable
paths of the function body. -/
inductive NewSocketResult
  | ok
  | invalidAddress
  | bindError
  | duplicateKey
  deriving DecidableEq, Repr

/-- The `bool` the C++ function actually returns. -/
def NewSocketResult.toBool : NewSocketResult → Bool
  | .ok => true
  | _ => false

/-- `SocketManagement::newSocket(addr, port)`: validate the address, attempt
to construct (bind) a `Socket` (outcome given by the `bindOk` oracle, new
socket identity by `sid`), then insert it under `socketKey addr port` unless
that key is already present, in which case the new socket is deleted and the
registry is left unchanged. -/
def newSocket (bindOk : Bool) (sid : Nat) (st : SocketRegistry)
    (addr : String) (port : Nat) : NewSocketResult × SocketRegistry :=
  if isValidIP addr then
    if bindOk then
      let key := socketKey addr port
      if (st.lookup key).isSome then
        (.duplicateKey, st)
      else
        (.ok, st ++ [(key, sid)])
    else
      (.bindError, st)
  else
    (.invalidAddress, st)

/-- `SocketManagement::acceptConnections()`: iterate over every registered
socket; for each, attempt `Socket::acceptConnection()` followed by
`ConnectionManagement::newConnection(...)` inside a `try` block whose
handlers catch `std::runtime_error` and `std::exception` and do nothing.
The oracle `accepts` gives each socket's accept outcome (`Except.error` for
a thrown exception, e.g. no pending connection).  Returns the list of socket
identities on which an accept was attempted, in order, together with the
connection registry after appending each successfully accepted
connection. -/
def acceptConnections (accepts : Nat → Except Unit Nat)
    (st : SocketRegistry) (conns : List Nat) : List Nat × List Nat :=
  st.foldl
    (fun acc entry =>
      (acc.1 ++ [entry.2],
        match accepts entry.2 with
        | .ok c => acc.2 ++ [c]
        | .error _ => acc.2))
    ([], conns)

/-! ### EventPreprocessor (`src/src/EventPreprocessor.cpp`)

The class stores the owning module's name and a (possibly null) function
pointer `bool (*)(const std::string&)`; the nullable pointer is modelled as
an `Option`. -/

structure EventPreprocessor where
  parentModule : String
  callback : Option (String → Bool)

/-- `EventPreprocessor::call`:
`return (this->callback != nullptr ? this->callback(name) : false);`. -/
def EventPreprocessor.call (p : EventPreprocessor) (name : String) : Bool :=
  match p.callback with
  | some f => f name
  | none => false

/-! ### The event bus (`src/include/EventHandling.hpp`)

Only the interface of `EventHandling` is among the sources; the
implementation file `EventHandling.cpp` is not.  The bus state and its
operations below are therefore modelled from the specification (§3, §4.1),
constrained by the declared signatures in `EventHandling.hpp` (in
particular, `triggerEvent` is declared to return `bool`, and handler,
preprocessor and subscription callbacks are plain function pointers).

Handlers and subscription callbacks only produce side effects, so they are
modelled as opaque identities (`Nat`); dispatch returns the trace of the
invocations the C++ code would perform, in order, with the argument passed
to each.  Preprocessor predicates return a `bool` the dispatcher consumes,
so they stay genuine functions `String → Bool`. -/

/-- Modelled from the spec: a preprocessor registration
(`registerPreprocessorForEvent(name, parentModule, callback, priority)`,
`EventHandling.hpp:36-38`) attaches an `EventPreprocessor` to a
`CommandEvent` together with its priority (lower runs earlier) and its
registration serial number (ties broken by registration order — stable). -/
structure PreprocessorReg where
  pre : EventPreprocessor
  priority : Int
  regIndex : Nat

/-- Modelled from the spec: a command event (`createEvent`,
`EventHandling.hpp:26-29`) has a globally unique name, an owning module
(empty = core-owned), exactly one handler, and an ordered list of
preprocessors. -/
structure CommandEvent where
  name : String
  parentModule : String
  handlerId : Nat
  preprocessors : List PreprocessorReg

/-- Modelled from the spec: a generic-bus subscription (`registerForEvent`,
`EventHandling.hpp:33-35`) with event name, owning module, opaque callback
identity, priority, and registration serial number. -/
structure Subscription where
  eventName : String
  parentModule : String
  callbackId : Nat
  priority : Int
  regIndex : Nat
  deriving DecidableEq, Repr

/-- Modelled from the spec: the state behind `EventHandling` — the command
events and the generic subscription lists; `counter` is the next
registration serial number. -/
structure BusState where
  events : List CommandEvent
  subs : List Subscription
  counter : Nat

/-- The empty bus. -/
def BusState.empty : BusState := ⟨[], [], 0⟩

/-- Modelled from the spec: `createEvent(name, parentModule, callback)`
registers a command event; fails with no mutation if `name` already
exists. -/
def createEvent (st : BusState) (name : String) (parentModule : String)
    (handlerId : Nat) : Bool × BusState :=
  if st.events.any (fun e => e.name == name) then
    (false, st)
  else
    (true, { st with events := st.events ++ [⟨name, parentModule, handlerId, []⟩] })

/-- Modelled from the spec: `registerPreprocessorForEvent(name,
parentModule, callback, priority)` appends a preprocessor to the named
command event's chain; fails if `name` has no CommandEvent. -/
def registerPreprocessorForEvent (st : BusState) (name : String)
    (parentModule : String) (callback : Option (String → Bool))
    (priority : Int) : Bool × BusState :=
  if st.events.any (fun e => e.name == name) then
    (true,
      { st with
        events := st.events.map (fun e =>
          if e.name == name then
            { e with preprocessors :=
                e.preprocessors ++ [⟨⟨parentModule, callback⟩, priority, st.counter⟩] }
          else e),
        counter := st.counter + 1 })
  else
    (false, st)

/-- Modelled from the spec: `registerForEvent(name, parentModule, callback,
priority)` adds a subscription; a duplicate `(name, parentModule, callback)`
combination is rejected; the generic-bus event name need not be
pre-declared. -/
def registerForEvent (st : BusState) (name : String) (parentModule : String)
    (callbackId : Nat) (priority : Int) : Bool × BusState :=
  if st.subs.any (fun s =>
      s.eventName == name && s.parentModule == parentModule &&
      s.callbackId == callbackId) then
    (false, st)
  else
    (true,
      { st with
        subs := st.subs ++ [⟨name, parentModule, callbackId, priority, st.counter⟩],
        counter := st.counter + 1 })

/-- Stable ascending insertion: the new element goes after every element of
no larger priority, so equal priorities keep their existing relative
order. -/
def insertByPriority {α : Type} (prio : α → Int) (x : α) : List α → List α
  | [] => [x]
  | y :: ys =>
    if prio y ≤ prio x then y :: insertByPriority prio x ys
    else x :: y :: ys

/-- Stable ascending-priority sort (insertion sort, processing elements in
list = registration order). -/
def sortByPriority {α : Type} (prio : α → Int) (l : List α) : List α :=
  l.foldl (fun acc x => insertByPriority prio x acc) []

/-- The subscriptions for an event name, in dispatch order. -/
def subsFor (st : BusState) (name : String) : List Subscription :=
  sortByPriority (fun s => s.priority)
    (st.subs.filter (fun s => s.eventName == name))

/-- Modelled from the spec: `triggerEvent(name, data)`
(`EventHandling.hpp:39` fixes the return type to `bool`) runs every
subscription for `name` in ascending-priority, registration-stable order,
passing the opaque payload.  Returns the `bool` (modelled as whether at
least one subscription ran) together with the invocation trace
`(callbackId, payload)` in call order. -/
def triggerEvent (st : BusState) (name : String) (data : Nat) :
    Bool × List (Nat × Nat) :=
  let ss := subsFor st name
  (!ss.isEmpty, ss.map (fun s => (s.callbackId, data)))

/-- Split raw data at the first space into the leading command token and the
remainder (spec §6: "split on the first whitespace/delimiter into
`(commandToken, remainder)`"); with no space the whole input is the token
and the remainder is empty. -/
def splitFirstSpace : List Char → List Char × List Char
  | [] => ([], [])
  | c :: cs =>
    if c = ' ' then ([], cs)
    else
      let r := splitFirstSpace cs
      (c :: r.1, r.2)

/-- `splitFirstSpace` lifted to `String`. -/
def splitCommand (data : String) : String × String :=
  let r := splitFirstSpace data.data
  (String.mk r.1, String.mk r.2)

/-- The command event with the given name, if any. -/
def findEvent (st : BusState) (name : String) : Option CommandEvent :=
  st.events.find? (fun e => e.name == name)

/-- A command event's preprocessors in dispatch order. -/
def presFor (ev : CommandEvent) : List PreprocessorReg :=
  sortByPriority (fun p => p.priority) ev.preprocessors

/-- Run a preprocessor chain on the raw data: each entry in the returned
trace is `(regIndex, argument passed to EventPreprocessor::call)`; the
`Bool` says whether every predicate returned `true`.  The first predicate
returning `false` ends the run — later preprocessors are not invoked. -/
def runPres (data : String) : List PreprocessorReg → List (Nat × String) × Bool
  | [] => ([], true)
  | p :: ps =>
    if p.pre.call data then
      let r := runPres data ps
      ((p.regIndex, data) :: r.1, r.2)
    else
      ([(p.regIndex, data)], false)

/-- What one `EventHandling::receiveData` call did: the preprocessor
invocations `(regIndex, argument)` in order, and the handler invocation
`(handlerId, name, connectionId, remainder)` if the handler ran. -/
structure DispatchResult where
  preTrace : List (Nat × String)
  handlerCall : Option (Nat × String × Nat × String)
  deriving DecidableEq, Repr

/-- Modelled from the spec: `receiveData(connection, data)`
(`EventHandling.hpp:31-32`) splits `data` into a leading token and
remainder; if no CommandEvent matches the token the call is a silent no-op;
otherwise the event's preprocessors run in ascending-priority,
registration-stable order, each receiving the raw data, the first `false`
vetoing dispatch; if none veto, the single handler runs with
`(name, connection, remainder)`. -/
def receiveData (st : BusState) (connId : Nat) (data : String) :
    DispatchResult :=
  let split := splitCommand data
  match findEvent st split.1 with
  | none => ⟨[], none⟩
  | some ev =>
    let r := runPres data (presFor ev)
    ⟨r.1, if r.2 then some (ev.handlerId, ev.name, connId, split.2) else none⟩

/-- Modelled from the spec: `unregisterModule(parentModule)`
(`EventHandling.hpp:45`) removes every CommandEvent owned by the module
(destroying a CommandEvent removes its handler and all its preprocessors,
§3), every preprocessor owned by the module on surviving events, and every
subscription owned by the module. -/
def unregisterModule (st : BusState) (parentModule : String) : BusState :=
  { st with
    events :=
      (st.events.filter (fun e => e.parentModule != parentModule)).map
        (fun e => { e with
          preprocessors := e.preprocessors.filter
            (fun p => p.pre.parentModule != parentModule) }),
    subs := st.subs.filter (fun s => s.parentModule != parentModule) }

/-- The command events owned by a module. -/
def ownedEvents (st : BusState) (m : String) : List CommandEvent :=
  st.events.filter (fun e => e.parentModule == m)

/-- The preprocessor registrations owned by a module, across all events. -/
def ownedPres (st : BusState) (m : String) : List PreprocessorReg :=
  (st.events.map (fun e =>
    e.preprocessors.filter (fun p => p.pre.parentModule == m))).flatten

/-- The subscriptions owned by a module. -/
def ownedSubs (st : BusState) (m : String) : List Subscription :=
  st.subs.filter (fun s => s.parentModule == m)

/-! ### ModuleManagement (`src/src/ModuleManagement.cpp`)

`ModuleManagement::modules` maps module names to loaded instances; the model
keeps the list of registered names.  The filesystem probe
(`determineModuleRoot`), `dlopen`, `dlsym`, and the module object returned
by the `_load` entry point are external effects, provided as a `LoadOracle`:
`root = none` models `determineModuleRoot` returning the empty string, and
`modul = none` models `_load` returning `nullptr`; otherwise `modul` gives
the reported name (`Module::getName()`) and the `isInstantiated()`
verdict. -/

/-- Characters of `s` after its last `'/'` — `basename(3)` for the
slash-containing paths `loadModule` builds. -/
def afterLastSlash (cs : List Char) : List Char :=
  cs.foldl (fun acc c => if c = '/' then [] else acc ++ [c]) []

/-- `ModuleManagement::getBasename`: `basename()` of the path, then the
trailing `".so"` (compared via `strncmp` at `strlen - 3`) removed when
present. -/
def getBasename (name : String) : String :=
  let base := afterLastSlash name.data
  if base.length ≥ 3 ∧ base.drop (base.length - 3) = ['.', 's', 'o'] then
    String.mk (base.take (base.length - 3))
  else
    String.mk base

/-- The path `loadModule` builds under the chosen root:
`root + "/modules/src/" + name + ".so"`. -/
def modulePath (root : String) (name : String) : String :=
  root ++ "/modules/src/" ++ name ++ ".so"

/-- Exceptions thrown by `ModuleManagement::loadModule`, by throw site. -/
inductive LoadErr
  | noSuchModule           -- ModuleManagement.cpp:132, root not found
  | dlopenFailed           -- ModuleManagement.cpp:198
  | dlsymFailed            -- ModuleManagement.cpp:190, dlerror after dlsym
  | badLoad                -- ModuleManagement.cpp:182, _load null or name mismatch
  | refusedInstantiation   -- ModuleManagement.cpp:172, isInstantiated false
  deriving DecidableEq, Repr

/-- The external effects one `loadModule` call observes. -/
structure LoadOracle where
  root : Option String
  dlopenOk : Bool
  dlsymOk : Bool
  modul : Option (String × Bool)

/-- `ModuleManagement::getModuleByName` is non-null exactly when the name is
registered. -/
def getModuleByName (modules : List String) (name : String) : Bool :=
  modules.contains name

/-- `ModuleManagement::unloadModule(name)`: `modules.erase(name)`, returning
whether an entry was removed. -/
def unloadModule (modules : List String) (name : String) :
    Bool × List String :=
  (modules.contains name, modules.filter (fun n => n != name))

/-- `ModuleManagement::loadModule(name)`: resolve the module root (throwing
`noSuchModule` if absent); skip everything and return `false` if a module
named `getBasename path` is already registered; `dlopen` the shared object
(throwing on failure); `dlsym` the `_load` entry point (throwing if
`dlerror` reports an error); call `_load` and check the returned module is
non-null and reports the requested name (throwing `badLoad` otherwise,
before any registration); register the module; then check
`isInstantiated()`, and on refusal roll the registration back via
`unloadModule` and throw. -/
def loadModule (o : LoadOracle) (modules : List String) (name : String) :
    Except LoadErr Bool × List String :=
  match o.root with
  | none => (.error .noSuchModule, modules)
  | some root =>
    let path := modulePath root name
    if getModuleByName modules (getBasename path) then
      (.ok false, modules)
    else if !o.dlopenOk then
      (.error .dlopenFailed, modules)
    else if !o.dlsymOk then
      (.error .dlsymFailed, modules)
    else
      match o.modul with
      | none => (.error .badLoad, modules)
      | some (reported, inst) =>
        if reported == getBasename path then
          let registered := modules ++ [reported]
          if inst then
            (.ok true, registered)
          else
            (.error .refusedInstantiation, (unloadModule registered reported).2)
        else
          (.error .badLoad, modules)

/-! ### Derived notions and concrete states used by the theorems -/

/-- Position of the first preprocessor in a chain whose predicate returns
`false` on the given data, if any. -/
def firstVetoIdx (data : String) : List PreprocessorReg → Option Nat
  | [] => none
  | p :: ps =>
    if p.pre.call data then (firstVetoIdx data ps).map (fun i => i + 1)
    else some 0

/-- Ascending-priority, registration-stable order: strictly earlier
priority, or equal priority and strictly earlier registration serial. -/
def priorityOrdered {α : Type} (prio : α → Int) (idx : α → Nat)
    (l : List α) : Prop :=
  l.Pairwise (fun a b => prio a < prio b ∨ (prio a = prio b ∧ idx a < idx b))

/-- Spec §8's subscription-ordering scenario: S1 (callback 1, priority 5)
registered first, then S2 (callback 2, priority 1), then S3 (callback 3,
priority 1). -/
def tickBus : BusState :=
  (registerForEvent (registerForEvent (registerForEvent BusState.empty
    "tick" "m" 1 5).2 "tick" "m" 2 1).2 "tick" "m" 3 1).2

/-- A bus with a single subscription on `"tick"`. -/
def tickBusOne : BusState :=
  (registerForEvent BusState.empty "tick" "m" 1 5).2

/-- Spec §8's preprocessor-veto scenario: command event `"cmd"`, then
P1 (priority 0, predicate returns `false`), then P2 (priority 1, predicate
returns `true`). -/
def cmdBus : BusState :=
  (registerPreprocessorForEvent (registerPreprocessorForEvent
    (createEvent BusState.empty "cmd" "m" 9).2
    "cmd" "m" (some (fun _ => false)) 0).2
    "cmd" "m" (some (fun _ => true)) 1).2

/-- The command event stored in `cmdBus`. -/
def cmdBusEvent : CommandEvent :=
  ⟨"cmd", "m", 9,
    [⟨⟨"m", some (fun _ => false)⟩, 0, 0⟩,
     ⟨⟨"m", some (fun _ => true)⟩, 1, 1⟩]⟩

/-- A bus where module `"m"` owns the command event `"cmd"` and module
`"x"` owns a preprocessor registered on that event. -/
def crossBus : BusState :=
  (registerPreprocessorForEvent (createEvent BusState.empty "cmd" "m" 9).2
    "cmd" "x" (some (fun _ => true)) 0).2

/-- A bus with command events and subscriptions owned by two modules:
events `"mcmd"` (module `"m"`) and `"xcmd"` (module `"x"`), and one
subscription of each module on `"tick"`. -/
def frameBus : BusState :=
  (registerForEvent (registerForEvent (createEvent (createEvent
    BusState.empty "mcmd" "m" 1).2 "xcmd" "x" 2).2
    "tick" "m" 10 0).2 "tick" "x" 11 0).2

/-! ## Helper lemmas -/

theorem insertByPriority_perm {α : Type} (prio : α → Int) (x : α)
    (l : List α) : (insertByPriority prio x l).Perm (x :: l) := by
  induction l with
  | nil => exact List.Perm.refl _
  | cons y ys ih =>
    by_cases h : prio y ≤ prio x
    · simp only [insertByPriority, if_pos h]
      exact (ih.cons y).trans (List.Perm.swap x y ys)
    · simp only [insertByPriority, if_neg h]
      exact List.Perm.refl _

theorem mem_insertByPriority {α : Type} {prio : α → Int} {x z : α}
    {l : List α} : z ∈ insertByPriority prio x l ↔ z = x ∨ z ∈ l := by
  rw [(insertByPriority_perm prio x l).mem_iff, List.mem_cons]

theorem foldl_insertByPriority_perm {α : Type} (prio : α → Int) :
    ∀ (l acc : List α),
      (l.foldl (fun acc x => insertByPriority prio x acc) acc).Perm (acc ++ l)
  | [], acc => by simp
  | x :: xs, acc => by
    simp only [List.foldl_cons]
    exact (foldl_insertByPriority_perm prio xs (insertByPriority prio x acc)).trans
      (((insertByPriority_perm prio x acc).append_right xs).trans
        List.perm_middle.symm)

theorem sortByPriority_perm {α : Type} (prio : α → Int) (l : List α) :
    (sortByPriority prio l).Perm l := by
  simpa [sortByPriority] using foldl_insertByPriority_perm prio l []

theorem insertByPriority_pairwise {α : Type} (prio : α → Int) (idx : α → Nat)
    {x : α} {l : List α}
    (hl : l.Pairwise
      (fun a b => prio a < prio b ∨ (prio a = prio b ∧ idx a < idx b)))
    (hidx : ∀ y ∈ l, idx y < idx x) :
    (insertByPriority prio x l).Pairwise
      (fun a b => prio a < prio b ∨ (prio a = prio b ∧ idx a < idx b)) := by
  induction l with
  | nil => simp [insertByPriority]
  | cons y ys ih =>
    rcases List.pairwise_cons.mp hl with ⟨hy, hys⟩
    by_cases h : prio y ≤ prio x
    · simp only [insertByPriority, if_pos h]
      refine List.pairwise_cons.mpr ⟨?_, ih hys
        (fun z hz => hidx z (List.mem_cons_of_mem _ hz))⟩
      intro z hz
      rcases mem_insertByPriority.mp hz with rfl | hz'
      · rcases lt_or_eq_of_le h with hlt | heq
        · exact Or.inl hlt
        · exact Or.inr ⟨heq, hidx y (List.mem_cons_self _ _)⟩
      · exact hy z hz'
    · simp only [insertByPriority, if_neg h]
      refine List.pairwise_cons.mpr ⟨?_, hl⟩
      intro z hz
      rcases List.mem_cons.mp hz with rfl | hz'
      · exact Or.inl (not_le.mp h)
      · rcases hy z hz' with hlt | ⟨heq, _⟩
        · exact Or.inl ((not_le.mp h).trans hlt)
        · exact Or.inl (heq ▸ not_le.mp h)

theorem foldl_insertByPriority_pairwise {α : Type} (prio : α → Int)
    (idx : α → Nat) :
    ∀ (l acc : List α),
      l.Pairwise (fun a b => idx a < idx b) →
      acc.Pairwise
        (fun a b => prio a < prio b ∨ (prio a = prio b ∧ idx a < idx b)) →
      (∀ a ∈ acc, ∀ b ∈ l, idx a < idx b) →
      (l.foldl (fun acc x => insertByPriority prio x acc) acc).Pairwise
        (fun a b => prio a < prio b ∨ (prio a = prio b ∧ idx a < idx b))
  | [], acc => fun _ hacc _ => hacc
  | x :: xs, acc => fun hl hacc hbound => by
    rcases List.pairwise_cons.mp hl with ⟨hx, hxs⟩
    simp only [List.foldl_cons]
    refine foldl_insertByPriority_pairwise prio idx xs _ hxs
      (insertByPriority_pairwise prio idx hacc
        (fun y hy => hbound y hy x (List.mem_cons_self _ _))) ?_
    intro a ha b hb
    rcases mem_insertByPriority.mp ha with rfl | ha'
    · exact hx b hb
    · exact hbound a ha' b (List.mem_cons_of_mem _ hb)

theorem sortByPriority_pairwise {α : Type} (prio : α → Int) (idx : α → Nat)
    {l : List α} (h : l.Pairwise (fun a b => idx a < idx b)) :
    priorityOrdered prio idx (sortByPriority prio l) :=
  foldl_insertByPriority_pairwise prio idx l [] h (List.Pairwise.nil)
    (fun a ha => absurd ha (List.not_mem_nil a))

theorem runPres_eq (data : String) :
    ∀ ps : List PreprocessorReg,
      runPres data ps =
        match firstVetoIdx data ps with
        | none => (ps.map (fun p => (p.regIndex, data)), true)
        | some i => ((ps.take (i + 1)).map (fun p => (p.regIndex, data)), false)
  | [] => rfl
  | p :: ps => by
    cases h : p.pre.call data with
    | true =>
      simp only [runPres, firstVetoIdx, if_pos h, runPres_eq data ps]
      cases hf : firstVetoIdx data ps with
      | none => simp
      | some i => simp [List.take_succ_cons]
    | false =>
      simp [runPres, firstVetoIdx, h]

theorem runPres_args (data : String) :
    ∀ ps : List PreprocessorReg,
      ((runPres data ps).1).all (fun e => e.2 == data) = true
  | [] => rfl
  | p :: ps => by
    cases h : p.pre.call data with
    | true => simp [runPres, h, runPres_args data ps]
    | false => simp [runPres, h]

theorem lookup_append_single_none {key k : String} {v : Nat}
    {st : SocketRegistry} (h : st.lookup key = none) (hne : key ≠ k) :
    (st ++ [(k, v)]).lookup key = none := by
  induction st with
  | nil =>
    have hb : (key == k) = false := beq_eq_false_iff_ne.mpr hne
    simp [List.lookup_cons, hb]
  | cons e es ih =>
    obtain ⟨ek, ev⟩ := e
    rw [List.lookup_cons] at h
    rw [List.cons_append, List.lookup_cons]
    cases hk : key == ek with
    | true => rw [hk] at h; exact absurd h (by simp)
    | false => rw [hk] at h; simpa using ih h

theorem filter_filter_of_imp {α : Type} (p q : α → Bool)
    (h : ∀ a, q a = true → p a = true) :
    ∀ l : List α, (l.filter p).filter q = l.filter q
  | [] => rfl
  | x :: xs => by
    cases hp : p x with
    | true =>
      simp only [List.filter_cons, hp, if_true]
      rw [filter_filter_of_imp p q h xs]
    | false =>
      have hq : q x = false := by
        cases hqx : q x
        · rfl
        · rw [h x hqx] at hp; exact absurd hp (by simp)
      simp [List.filter_cons, hp, hq, filter_filter_of_imp p q h xs]

theorem filter_ne_self {l : List String} {a : String} (h : a ∉ l) :
    l.filter (fun x => x != a) = l := by
  induction l with
  | nil => rfl
  | cons x xs ih =>
    have hx : x ≠ a := fun e => h (e ▸ List.mem_cons_self x xs)
    have hxs : a ∉ xs := fun m => h (List.mem_cons_of_mem _ m)
    simp [List.filter_cons, hx, ih hxs]

theorem acceptConnections_foldl (accepts : Nat → Except Unit Nat) :
    ∀ (st : SocketRegistry) (a1 a2 : List Nat),
      st.foldl (fun acc entry =>
        (acc.1 ++ [entry.2],
          match accepts entry.2 with
          | .ok c => acc.2 ++ [c]
          | .error _ => acc.2)) (a1, a2) =
      (a1 ++ st.map (fun e => e.2),
        a2 ++ st.filterMap (fun e => (accepts e.2).toOption))
  | [], a1, a2 => by simp
  | e :: es, a1, a2 => by
    simp only [List.foldl_cons, List.map_cons, List.filterMap_cons]
    cases h : accepts e.2 with
    | ok c =>
      rw [acceptConnections_foldl accepts es (a1 ++ [e.2]) (a2 ++ [c])]
      simp [Except.toOption, h]
    | error u =>
      rw [acceptConnections_foldl accepts es (a1 ++ [e.2]) a2]
      simp [Except.toOption, h]

theorem perm_isEmpty_eq {α : Type} {l₁ l₂ : List α} (h : l₁.Perm l₂) :
    l₁.isEmpty = l₂.isEmpty := by
  cases l₁ with
  | nil => rw [h.symm.eq_nil]
  | cons x xs =>
    cases l₂ with
    | nil => exact absurd h.eq_nil (by simp)
    | cons y ys => rfl

/-! ## Claims -/

/-- C7: for every string `a` that is not a well-formed dotted-decimal IPv4
literal and every port `p`, `newSocket(a, p)` fails with `InvalidAddress`
and adds nothing to the socket registry: the registry is exactly as it was
before the call. -/
theorem newSocket_invalid_address_no_mutation
    (b : Bool) (sid : Nat) (st : SocketRegistry) (a : String) (p : Nat)
    (h : isValidIP a = false) :
    newSocket b sid st a p = (.invalidAddress, st) := by
  simp [newSocket, h]

/-- Witness for C7 at `newSocket("not.an.ip", 9000)` on the empty
registry. -/
theorem newSocket_invalid_address_no_mutation_witness :
    isValidIP "not.an.ip" = false ∧
    newSocket true 1 [] "not.an.ip" 9000 = (.invalidAddress, []) :=
  ⟨by decide,
    newSocket_invalid_address_no_mutation true 1 [] "not.an.ip" 9000
      (by decide)⟩

/-- C9: `acceptConnections` attempts an accept on every registered listening
socket (first component: the sockets attempted, in registry order, always
all of them), an accept failure on any socket neither propagates an error
out of the call (the function is total — every thrown exception is caught
inside the loop body) nor prevents the accept attempt on the remaining
sockets: the resulting connection registry extends the old one with exactly
the successful accepts, regardless of where failures occur. -/
theorem acceptConnections_attempts_all_swallows_failures
    (accepts : Nat → Except Unit Nat) (st : SocketRegistry)
    (conns : List Nat) :
    (acceptConnections accepts st conns).1 = st.map (fun e => e.2) ∧
    (acceptConnections accepts st conns).2 =
      conns ++ st.filterMap (fun e => (accepts e.2).toOption) := by
  unfold acceptConnections
  rw [acceptConnections_foldl]
  exact ⟨by simp, rfl⟩

/-- C10: an `EventPreprocessor` constructed with a null predicate pointer
returns `false` from every `call(...)` without invoking any callback (the
`none` branch of the model invokes nothing). -/
theorem call_null_predicate_returns_false (pm : String) (name : String) :
    (EventPreprocessor.mk pm none).call name = false := rfl

/-- C6: while a socket is registered under `socketKey a p`, a second
`newSocket(a, p)` fails — with `DuplicateKey` when the fresh bind succeeds
and reaches the key check — performs no mutation of the registry whatever
the bind outcome, and the originally registered socket stays registered
under its key: an existing live socket is never replaced. -/
theorem newSocket_duplicate_key_no_replacement
    (st : SocketRegistry) (a : String) (p : Nat) (sid0 : Nat)
    (b : Bool) (sid : Nat)
    (hvalid : isValidIP a = true)
    (hreg : st.lookup (socketKey a p) = some sid0) :
    (newSocket true sid st a p).1 = .duplicateKey ∧
    (newSocket b sid st a p).2 = st ∧
    (newSocket b sid st a p).1 ≠ .ok ∧
    (newSocket b sid st a p).2.lookup (socketKey a p) = some sid0 := by
  have hsome : (st.lookup (socketKey a p)).isSome = true := by
    rw [hreg]; rfl
  refine ⟨?_, ?_, ?_, ?_⟩ <;> cases b <;>
    simp [newSocket, hvalid, hsome, hreg]

/-- Witness for C6: registry holding socket 5 under key
`"127.0.0.19000"` = `socketKey "127.0.0.1" 9000`; the re-registration
attempt uses socket identity 8 and a failing bind for the
`b = false` side. -/
theorem newSocket_duplicate_key_no_replacement_witness :
    isValidIP "127.0.0.1" = true ∧
    (([("127.0.0.19000", 5)] : SocketRegistry).lookup
      (socketKey "127.0.0.1" 9000) = some 5) ∧
    ((newSocket true 8 [("127.0.0.19000", 5)] "127.0.0.1" 9000).1 =
        .duplicateKey ∧
      (newSocket false 8 [("127.0.0.19000", 5)] "127.0.0.1" 9000).2 =
        [("127.0.0.19000", 5)] ∧
      (newSocket false 8 [("127.0.0.19000", 5)] "127.0.0.1" 9000).1 ≠ .ok ∧
      (newSocket false 8 [("127.0.0.19000", 5)] "127.0.0.1" 9000).2.lookup
        (socketKey "127.0.0.1" 9000) = some 5) :=
  ⟨by decide, by decide,
    newSocket_duplicate_key_no_replacement [("127.0.0.19000", 5)]
      "127.0.0.1" 9000 5 false 8 (by decide) (by decide)⟩

/-- C1 (counterexample): the registry key concatenates the normalized
address and the decimal port with no separator
(`SocketManagement.cpp:131`), so the distinct pairs `("127.0.0.1", 19000)`
and `("127.0.0.11", 9000)` — distinct normalized addresses — share the key
`"127.0.0.119000"`: after the first registers successfully, the second
fails with `DuplicateKey`, contradicting the claim that distinct pairs
always occupy distinct entries. -/
theorem newSocket_distinct_pair_duplicate_counterexample :
    getValidIP "127.0.0.1" ≠ getValidIP "127.0.0.11" ∧
    (newSocket true 1 [] "127.0.0.1" 19000).1 = .ok ∧
    (newSocket true 2 (newSocket true 1 [] "127.0.0.1" 19000).2
      "127.0.0.11" 9000).1 = .duplicateKey := by
  refine ⟨by decide, by decide, by decide⟩

/-- C1 (amended): registering `(a1, p1)` never causes `newSocket (a2, p2)`
to fail with `DuplicateKey` provided the two calls' registry keys —
normalized address concatenated directly with the decimal port, with no
separator — differ, and `(a2, p2)`'s key was not already present. -/
theorem newSocket_distinct_key_no_duplicate
    (st : SocketRegistry) (a1 a2 : String) (p1 p2 : Nat)
    (sid1 sid2 : Nat) (b2 : Bool)
    (hkey : socketKey a1 p1 ≠ socketKey a2 p2)
    (habsent : st.lookup (socketKey a2 p2) = none) :
    (newSocket b2 sid2 (newSocket true sid1 st a1 p1).2 a2 p2).1 ≠
      .duplicateKey := by
  have habsent' :
      ((newSocket true sid1 st a1 p1).2).lookup (socketKey a2 p2) = none := by
    cases hv : isValidIP a1 with
    | false => simpa [newSocket, hv] using habsent
    | true =>
      cases hl : (st.lookup (socketKey a1 p1)).isSome with
      | true => simpa [newSocket, hv, hl] using habsent
      | false =>
        have h2 : (newSocket true sid1 st a1 p1).2 =
            st ++ [(socketKey a1 p1, sid1)] := by
          simp [newSocket, hv, hl]
        rw [h2]
        exact lookup_append_single_none habsent (Ne.symm hkey)
  revert habsent'
  generalize (newSocket true sid1 st a1 p1).2 = st1
  intro habsent'
  cases hv2 : isValidIP a2 with
  | false => simp [newSocket, hv2]
  | true =>
    cases b2 with
    | false => simp [newSocket, hv2]
    | true =>
      have hns : (st1.lookup (socketKey a2 p2)).isSome = false := by
        rw [habsent']; rfl
      simp [newSocket, hv2, hns]

/-- Witness for C1 (amended): `(127.0.0.1, 9000)` then `(127.0.0.2, 9000)`
— different keys — on the empty registry, with a successful second bind. -/
theorem newSocket_distinct_key_no_duplicate_witness :
    socketKey "127.0.0.1" 9000 ≠ socketKey "127.0.0.2" 9000 ∧
    (([] : SocketRegistry).lookup (socketKey "127.0.0.2" 9000) = none) ∧
    (newSocket true 2 (newSocket true 1 [] "127.0.0.1" 9000).2
      "127.0.0.2" 9000).1 ≠ .duplicateKey :=
  ⟨by decide, by decide,
    newSocket_distinct_key_no_duplicate [] "127.0.0.1" "127.0.0.2"
      9000 9000 1 2 true (by decide) (by decide)⟩

/-- C3 (counterexample): `triggerEvent` is declared in `EventHandling.hpp`
to return `bool`, not a count: with three subscriptions on `"tick"` it runs
all three, with one subscription it runs one, yet it returns the same value
in both runs — the return value cannot be "the number of subscriptions that
ran" (in particular it is never `3`). -/
theorem triggerEvent_bool_not_count_counterexample :
    (triggerEvent tickBus "tick" 42).2.length = 3 ∧
    (triggerEvent tickBusOne "tick" 42).2.length = 1 ∧
    (triggerEvent tickBus "tick" 42).1 = (triggerEvent tickBusOne "tick" 42).1 := by
  refine ⟨by decide, by decide, by decide⟩

/-- C3 (amended): for every event name and payload, `triggerEvent` invokes
every subscription registered for that name — the trace is exactly the
priority-sorted subscription list, a permutation of the registered ones —
in ascending-priority order with ties broken by registration order, passing
the payload to each, and (the declared return type being `bool`, not a
count) returns `true` exactly when at least one subscription exists for the
name; no subscriptions is not an error. -/
theorem triggerEvent_order_and_return
    (st : BusState) (name : String) (data : Nat)
    (h : st.subs.Pairwise (fun a b => a.regIndex < b.regIndex)) :
    (triggerEvent st name data).2 =
      (subsFor st name).map (fun s => (s.callbackId, data)) ∧
    (subsFor st name).Perm
      (st.subs.filter (fun s => s.eventName == name)) ∧
    priorityOrdered (fun s => s.priority) (fun s => s.regIndex)
      (subsFor st name) ∧
    (triggerEvent st name data).1 =
      !(st.subs.filter (fun s => s.eventName == name)).isEmpty := by
  refine ⟨rfl, sortByPriority_perm _ _,
    sortByPriority_pairwise _ _
      (List.Pairwise.sublist (List.filter_sublist _) h), ?_⟩
  show (!(subsFor st name).isEmpty) = _
  have hperm : (subsFor st name).Perm
      (st.subs.filter (fun s => s.eventName == name)) :=
    sortByPriority_perm _ _
  rw [perm_isEmpty_eq hperm]

/-- Witness for C3 (amended) at spec §8's scenario: S1 (priority 5), S2
(priority 1), S3 (priority 1, registered after S2) on `"tick"`. -/
theorem triggerEvent_order_and_return_witness :
    tickBus.subs.Pairwise (fun a b => a.regIndex < b.regIndex) ∧
    ((triggerEvent tickBus "tick" 42).2 =
        (subsFor tickBus "tick").map (fun s => (s.callbackId, 42)) ∧
      (subsFor tickBus "tick").Perm
        (tickBus.subs.filter (fun s => s.eventName == "tick")) ∧
      priorityOrdered (fun s => s.priority) (fun s => s.regIndex)
        (subsFor tickBus "tick") ∧
      (triggerEvent tickBus "tick" 42).1 =
        !(tickBus.subs.filter (fun s => s.eventName == "tick")).isEmpty) :=
  ⟨by decide, triggerEvent_order_and_return tickBus "tick" 42 (by decide)⟩

/-- C2: during command dispatch, every preprocessor predicate of the
matched CommandEvent is invoked with the full raw incoming data — every
entry of the preprocessor-invocation trace carries the raw `data` as the
argument passed to `EventPreprocessor::call`, never any other argument. -/
theorem receiveData_preprocessors_get_raw_data
    (st : BusState) (connId : Nat) (data : String) :
    ((receiveData st connId data).preTrace).all
      (fun e => e.2 == data) = true := by
  simp only [receiveData]
  cases h : findEvent st (splitCommand data).1 with
  | none => rfl
  | some ev => simpa using runPres_args data (presFor ev)

/-- C5: when incoming data's leading token matches a CommandEvent, its
preprocessors run in ascending-priority, registration-stable order (the
dispatch chain is ordered lexicographically by priority then registration
serial, and is a permutation of the registered chain), and dispatch is
decided by the first vetoing predicate: with no veto, the trace is the
whole sorted chain and the single handler runs with
`(name, connection, remainder)`; with a first veto at position `i`, the
trace stops right after position `i` — no later preprocessor runs — and
the handler does not run. -/
theorem receiveData_veto_ordering_and_dispatch
    (st : BusState) (connId : Nat) (data : String) (ev : CommandEvent)
    (hev : findEvent st (splitCommand data).1 = some ev)
    (hidx : ev.preprocessors.Pairwise (fun a b => a.regIndex < b.regIndex)) :
    priorityOrdered (fun p => p.priority) (fun p => p.regIndex)
      (presFor ev) ∧
    (presFor ev).Perm ev.preprocessors ∧
    receiveData st connId data =
      (match firstVetoIdx data (presFor ev) with
       | none =>
         ⟨(presFor ev).map (fun p => (p.regIndex, data)),
          some (ev.handlerId, ev.name, connId, (splitCommand data).2)⟩
       | some i =>
         ⟨((presFor ev).take (i + 1)).map (fun p => (p.regIndex, data)),
          none⟩) := by
  refine ⟨sortByPriority_pairwise _ _ hidx, sortByPriority_perm _ _, ?_⟩
  simp only [receiveData, hev]
  rw [runPres_eq data (presFor ev)]
  cases hf : firstVetoIdx data (presFor ev) with
  | none => simp
  | some i => simp

/-- Witness for C5 at spec §8's scenario: event `"cmd"` with
P1 (priority 0, returns `false`) and P2 (priority 1, returns `true`);
dispatching `"cmd args"` runs P1 only and not the handler. -/
theorem receiveData_veto_ordering_and_dispatch_witness :
    findEvent cmdBus (splitCommand "cmd args").1 = some cmdBusEvent ∧
    cmdBusEvent.preprocessors.Pairwise
      (fun a b => a.regIndex < b.regIndex) ∧
    (priorityOrdered (fun p => p.priority) (fun p => p.regIndex)
        (presFor cmdBusEvent) ∧
      (presFor cmdBusEvent).Perm cmdBusEvent.preprocessors ∧
      receiveData cmdBus 7 "cmd args" =
        (match firstVetoIdx "cmd args" (presFor cmdBusEvent) with
         | none =>
           ⟨(presFor cmdBusEvent).map (fun p => (p.regIndex, "cmd args")),
            some (cmdBusEvent.handlerId, cmdBusEvent.name, 7,
              (splitCommand "cmd args").2)⟩
         | some i =>
           ⟨((presFor cmdBusEvent).take (i + 1)).map
              (fun p => (p.regIndex, "cmd args")),
            none⟩)) :=
  ⟨rfl, by decide,
    receiveData_veto_ordering_and_dispatch cmdBus 7 "cmd args" cmdBusEvent
      rfl (by decide)⟩

/-- C4 (counterexample): module `"x"` owns a preprocessor registered on the
CommandEvent `"cmd"` owned by module `"m"`; `unregisterModule "m"` destroys
the event and, with it, x's preprocessor — so something owned by a module
other than `"m"` does not stay unchanged, refuting the claim's frame
clause. -/
theorem unregisterModule_removes_other_modules_preprocessor :
    "x" ≠ "m" ∧
    (ownedPres crossBus "x").length = 1 ∧
    ownedPres (unregisterModule crossBus "m") "x" = [] := by
  refine ⟨by decide, rfl, rfl⟩

/-- C4 (amended): `unregisterModule m` removes every CommandEvent, every
preprocessor and every subscription owned by `m`; subscriptions owned by
any other module are untouched, and every CommandEvent owned by another
module survives in place with exactly its `m`-owned preprocessors removed —
so preprocessors owned by other modules survive exactly when their host
CommandEvent is not owned by `m` (a preprocessor never outlives its
CommandEvent). -/
theorem unregisterModule_cascade_and_frame
    (st : BusState) (m m' : String) (h : m' ≠ m) :
    ((unregisterModule st m).events.all
      (fun e => e.parentModule != m)) = true ∧
    ((unregisterModule st m).events.all
      (fun e => e.preprocessors.all
        (fun p => p.pre.parentModule != m))) = true ∧
    ((unregisterModule st m).subs.all
      (fun s => s.parentModule != m)) = true ∧
    ownedSubs (unregisterModule st m) m' = ownedSubs st m' ∧
    ownedEvents (unregisterModule st m) m' =
      (ownedEvents st m').map (fun e => { e with
        preprocessors :=
          e.preprocessors.filter (fun p => p.pre.parentModule != m) }) := by
  have himpS : ∀ s : Subscription, (s.parentModule == m') = true →
      (s.parentModule != m) = true := by
    intro s hs
    have he : s.parentModule = m' := by simpa using hs
    simpa [he] using h
  have himpE : ∀ e : CommandEvent, (e.parentModule == m') = true →
      (e.parentModule != m) = true := by
    intro e hs
    have he : e.parentModule = m' := by simpa using hs
    simpa [he] using h
  refine ⟨?_, ?_, ?_, ?_, ?_⟩
  · rw [List.all_eq_true]
    intro e he
    obtain ⟨e', he', rfl⟩ := List.mem_map.mp he
    exact (List.mem_filter.mp he').2
  · rw [List.all_eq_true]
    intro e he
    obtain ⟨e', he', rfl⟩ := List.mem_map.mp he
    rw [List.all_eq_true]
    intro p hp
    exact (List.mem_filter.mp hp).2
  · rw [List.all_eq_true]
    intro s hs
    exact (List.mem_filter.mp hs).2
  · show ((st.subs.filter (fun s => s.parentModule != m)).filter
        (fun s => s.parentModule == m')) =
      st.subs.filter (fun s => s.parentModule == m')
    exact filter_filter_of_imp _ _ himpS st.subs
  · have h1 : ownedEvents (unregisterModule st m) m' =
        ((st.events.filter (fun e => e.parentModule != m)).map
          (fun e : CommandEvent => { e with
            preprocessors :=
              e.preprocessors.filter
                (fun p => p.pre.parentModule != m) })).filter
          (fun e => e.parentModule == m') := rfl
    have hcomp : ((fun e : CommandEvent => e.parentModule == m') ∘
        (fun e : CommandEvent => { e with
          preprocessors :=
            e.preprocessors.filter (fun p => p.pre.parentModule != m) })) =
        (fun e : CommandEvent => e.parentModule == m') := rfl
    rw [h1, List.filter_map, hcomp, filter_filter_of_imp _ _ himpE st.events]
    rfl

/-- Witness for C4 (amended) on a bus where modules `"m"` and `"x"` each
own a CommandEvent and a subscription. -/
theorem unregisterModule_cascade_and_frame_witness :
    "x" ≠ "m" ∧
    (((unregisterModule frameBus "m").events.all
        (fun e => e.parentModule != "m")) = true ∧
      ((unregisterModule frameBus "m").events.all
        (fun e => e.preprocessors.all
          (fun p => p.pre.parentModule != "m"))) = true ∧
      ((unregisterModule frameBus "m").subs.all
        (fun s => s.parentModule != "m")) = true ∧
      ownedSubs (unregisterModule frameBus "m") "x" =
        ownedSubs frameBus "x" ∧
      ownedEvents (unregisterModule frameBus "m") "x" =
        (ownedEvents frameBus "x").map (fun e => { e with
          preprocessors :=
            e.preprocessors.filter (fun p => p.pre.parentModule != "m") })) :=
  ⟨by decide, unregisterModule_cascade_and_frame frameBus "m" "x" (by decide)⟩

/-- C8: when `loadModule` fails after the shared object is opened — the
`_load` entry point yields no module, the module's reported name differs
from the requested name, or `isInstantiated()` returns `false` — the
failure is reported as a thrown error, the module registry is exactly as
before the call (the `isInstantiated` case registers first and rolls back
via `unloadModule` before throwing), and `getModuleByName` for the
requested name afterwards returns null. -/
theorem loadModule_failure_rollback
    (o : LoadOracle) (modules : List String) (name root : String)
    (hroot : o.root = some root)
    (hbase : getBasename (modulePath root name) = name)
    (hnew : name ∉ modules)
    (hopen : o.dlopenOk = true) (hsym : o.dlsymOk = true)
    (hfail : o.modul = none ∨
      (∃ rep inst, o.modul = some (rep, inst) ∧ (rep ≠ name ∨ inst = false))) :
    (∃ e, (loadModule o modules name).1 = Except.error e) ∧
    (loadModule o modules name).2 = modules ∧
    getModuleByName (loadModule o modules name).2 name = false := by
  have hcont : modules.contains name = false :=
    Bool.eq_false_iff.mpr (fun hc => hnew (List.elem_iff.mp hc))
  rcases hfail with hnone | ⟨rep, inst, hsome, hri⟩
  · have hv : loadModule o modules name = (.error .badLoad, modules) := by
      simp [loadModule, hroot, hbase, hnone, hopen, hsym, getModuleByName,
        hcont, hnew]
    refine ⟨⟨.badLoad, by rw [hv]⟩, by rw [hv], ?_⟩
    rw [hv]
    exact hcont
  · by_cases hr : rep = name
    · rw [hr] at hsome
      have hinst : inst = false := by
        rcases hri with hne | hf
        · exact absurd hr hne
        · exact hf
      subst hinst
      have hclean : (modules ++ [name]).filter (fun x => x != name) =
          modules := by
        rw [List.filter_append, filter_ne_self hnew]
        simp
      have hv : loadModule o modules name =
          (.error .refusedInstantiation, modules) := by
        simp [loadModule, hroot, hbase, hsome, hopen, hsym, getModuleByName,
          hcont, hnew, unloadModule, hclean]
      refine ⟨⟨.refusedInstantiation, by rw [hv]⟩, by rw [hv], ?_⟩
      rw [hv]
      exact hcont
    · have hb : (rep == name) = false := beq_eq_false_iff_ne.mpr hr
      have hv : loadModule o modules name = (.error .badLoad, modules) := by
        simp [loadModule, hroot, hbase, hsome, hopen, hsym, getModuleByName,
          hcont, hnew, hb]
      refine ⟨⟨.badLoad, by rw [hv]⟩, by rw [hv], ?_⟩
      rw [hv]
      exact hcont

/-- Witness for C8: requesting module `"Foo"` under root `"/core"` with an
empty registry, where the loaded module reports name `"Foo"` but refuses
instantiation. -/
theorem loadModule_failure_rollback_witness :
    (LoadOracle.mk (some "/core") true true (some ("Foo", false))).root =
      some "/core" ∧
    getBasename (modulePath "/core" "Foo") = "Foo" ∧
    "Foo" ∉ ([] : List String) ∧
    ((∃ e, (loadModule
        (LoadOracle.mk (some "/core") true true (some ("Foo", false)))
        [] "Foo").1 = Except.error e) ∧
      (loadModule
        (LoadOracle.mk (some "/core") true true (some ("Foo", false)))
        [] "Foo").2 = [] ∧
      getModuleByName (loadModule
        (LoadOracle.mk (some "/core") true true (some ("Foo", false)))
        [] "Foo").2 "Foo" = false) :=
  ⟨rfl, by decide, by decide,
    loadModule_failure_rollback
      (LoadOracle.mk (some "/core") true true (some ("Foo", false)))
      [] "Foo" "/core" rfl (by decide) (by decide) rfl rfl
      (Or.inr ⟨"Foo", false, rfl, Or.inr rfl⟩)⟩

end Modfwango
